import Mathlib

/-!
# vault-benchmark: the KVV2 target provider

A shallow embedding of `benchmarktests/target_secret_kvv2.go` and the
properties of its lifecycle (`ParseConfig`, `Setup`, `Target`,
`GetTargetInfo`, `Cleanup`).

Conventions of the embedding:

* Go strings are Lean strings; a `[]byte` built from a string is that string,
  and the nil slice is the empty string.
* A Go `int` is an `Int` of the 64-bit range; `int` arithmetic that can leave
  the range wraps by `toInt64`, and the conversion `int32(x)` is `toInt32`,
  which wraps.
* A loop runs on fuel, the number of times its condition may be evaluated;
  `none` stands for a run that has not returned when the fuel is used up.
* A Go `error` is the string its `Error()` method renders.
* A panic of target generation is the `Except.error` branch.
* The backend behind `*api.Client` is a function from the history of events
  and the call being made to an optional error; every call is appended to the
  history, which the operations pass along explicitly.
-/

namespace KVV2

/-! ## Go primitives used by the provider -/

/-- Go conversion `int32(x)`: the low 32 bits of `x`, read in two's complement. -/
def toInt32 (x : Int) : Int :=
  let m := x % 4294967296
  if m < 2147483648 then m else m - 4294967296

/-- Go `int` arithmetic on 64 bits: the low 64 bits of `x`, read in two's complement. -/
def toInt64 (x : Int) : Int :=
  let m := x % 18446744073709551616
  if m < 9223372036854775808 then m else m - 18446744073709551616

/-- Go `strconv.Itoa`: decimal rendering, with a leading minus sign for a negative number. -/
def Itoa (i : Int) : String :=
  if i < 0 then "-" ++ toString i.natAbs else toString i.toNat

/-- Go `rand.Int31n(n)`: panics when `n <= 0`, otherwise returns a value of `[0, n)`.
The argument `draw` is the state of the random source; reducing it modulo `n`
makes every value of `[0, n)` a possible result and no other. -/
def Int31n (n : Int) (draw : Nat) : Except String Int :=
  if n ≤ 0 then .error "invalid argument to Int31n" else .ok ((draw : Int) % n)

/-- The string made of `n` copies of `s`, one after the other. -/
def copies (s : String) : Nat → String
  | 0 => ""
  | n + 1 => s ++ copies s n

/-- Go `strings.Repeat(s, count)`: panics on a negative count. -/
def Repeat (s : String) (count : Int) : Except String String :=
  if count < 0 then .error "strings: negative Repeat count"
  else .ok (copies s count.toNat)

/-- Replacement of the first occurrence of `old` in `s` by `new`, on character lists. -/
def replaceFirst (old new : List Char) : List Char → List Char
  | [] => if old = [] then new else []
  | c :: cs =>
    if old.isPrefixOf (c :: cs) then new ++ (c :: cs).drop old.length
    else c :: replaceFirst old new cs

/-- Go `strings.Replace(s, old, new, 1)`: a copy of `s` with its first
occurrence of `old` replaced by `new`. -/
def stringsReplace1 (s old new : String) : String :=
  String.mk (replaceFirst old.data new.data s.data)

/-! ## Data model -/

/-- Go `http.Header`: keys with their lists of values. -/
abbrev Header := List (String × List String)

/-- Go `http.Header.Get`: the first value of the key, or the empty string. -/
def Header.Get (h : Header) (key : String) : String :=
  match h.lookup key with
  | some (v :: _) => v
  | _ => ""

/-- The request descriptor `vegeta.Target`. -/
structure vegeta.Target where
  Method : String
  URL : String
  Header : Header
  Body : String
  deriving DecidableEq, Repr

/-- The metadata record `TargetInfo`. -/
structure TargetInfo where
  method : String
  pathPrefix : String
  deriving DecidableEq, Repr

/-- The struct `KVV2Config`. -/
structure KVV2Config where
  KVSize : Int
  NumKVs : Int
  deriving DecidableEq, Repr

/-- The struct `KVV2TestConfig`; its field is a pointer, `none` is nil. -/
structure KVV2TestConfig where
  Config : Option KVV2Config
  deriving DecidableEq, Repr

/-- The struct `KVV2Test`; fields a struct literal leaves out hold Go's zero value. -/
structure KVV2Test where
  pathPrefix : String := ""
  header : Header := []
  config : Option KVV2TestConfig := none
  action : String := ""
  numKVs : Int := 0
  kvSize : Int := 0
  deriving DecidableEq, Repr

def KVV2ReadTestType : String := "kvv2_read"
def KVV2WriteTestType : String := "kvv2_write"
def KVV2ReadTestMethod : String := "GET"
def KVV2WriteTestMethod : String := "POST"

/-- The registrations of `init`: the factory stored in `TestList` under each test type. -/
def TestList (testType : String) : Option KVV2Test :=
  if testType = KVV2ReadTestType then some { action := "read" }
  else if testType = KVV2WriteTestType then some { action := "write" }
  else none

/-! ## Target generation -/

/-- The method `KVV2Test.read`; `address` is `client.Address()`. A panic of
`rand.Int31n` ends the call. -/
def read (k : KVV2Test) (address : String) (draw : Nat) : Except String vegeta.Target :=
  match Int31n (toInt32 k.numKVs) draw with
  | .error p => .error p
  | .ok r =>
    let secnum := toInt32 (1 + r)
    .ok { Method := "GET"
          URL := address ++ k.pathPrefix ++ "/data/secret-" ++ Itoa secnum
          Header := k.header
          Body := "" }

/-- The method `KVV2Test.write`. A panic of `rand.Int31n` or of
`strings.Repeat` ends the call. -/
def write (k : KVV2Test) (address : String) (draw : Nat) : Except String vegeta.Target :=
  match Int31n (toInt32 k.numKVs) draw with
  | .error p => .error p
  | .ok r =>
    let secnum := toInt32 (1 + r)
    match Repeat "a" k.kvSize with
    | .error p => .error p
    | .ok value =>
      .ok { Method := "POST"
            URL := address ++ k.pathPrefix ++ "/data/secret-" ++ Itoa secnum
            Header := k.header
            Body := "\x7b\"data\": \x7b\"foo\": \"" ++ value ++ "\"\x7d\x7d" }

/-- The method `KVV2Test.Target`. -/
def Target (k : KVV2Test) (address : String) (draw : Nat) : Except String vegeta.Target :=
  if k.action = "write" then write k address draw else read k address draw

/-- The method `KVV2Test.GetTargetInfo`. -/
def GetTargetInfo (k : KVV2Test) : TargetInfo :=
  let method := if k.action = "write" then KVV2WriteTestMethod else KVV2ReadTestMethod
  { method := method, pathPrefix := k.pathPrefix }

/-! ## Configuration decoding -/

/-- The expression of an attribute as `gohcl` sees it when the target field is
a Go `int`: either it evaluates to a whole number, or it is anything that has
no conversion to one (a string that is not a number, a bool, a collection). -/
inductive HclExpr where
  | int (n : Int)
  | other (src : String)
  deriving DecidableEq, Repr

/-- A block of an `hcl.Body`: its type, labels, attributes and the types of its nested blocks. -/
structure HclBlock where
  typeName : String
  labels : List String
  attrs : List (String × HclExpr)
  blocks : List String
  deriving DecidableEq, Repr

/-- The content of an `hcl.Body`. -/
structure HclBody where
  attrs : List (String × HclExpr)
  blocks : List HclBlock
  deriving DecidableEq, Repr

/-- Modelled from the spec: the conversion of an attribute's value to a Go
`int` (64 bits) inside `gohcl.DecodeBody`; a value of the wrong type is an error. -/
def decodeInt (name : String) (e : HclExpr) : Except String Int :=
  match e with
  | .int n =>
    if -9223372036854775808 ≤ n ∧ n ≤ 9223372036854775807 then .ok n
    else .error ("Unsuitable value type: " ++ name ++ ": value must be a whole number, between -9223372036854775808 and 9223372036854775807")
  | .other _ => .error ("Unsuitable value type: " ++ name ++ ": a number is required")

/-- Modelled from the spec: the decoding, inside `gohcl.DecodeBody`, of one
`optional` integer attribute into a field holding `cur`; an absent attribute
leaves the field as it is. -/
def decodeField (attrs : List (String × HclExpr)) (name : String) (cur : Int) :
    Int × List String :=
  match attrs.lookup name with
  | none => (cur, [])
  | some e =>
    match decodeInt name e with
    | .ok n => (n, [])
    | .error d => (cur, [d])

/-- Modelled from the spec: the decoding, inside `gohcl.DecodeBody`, of a
`config` block into a `KVV2Config` (fields `kvsize` and `numkvs`, both
optional) that already holds `cur`. -/
def decodeConfigBlock (b : HclBlock) (cur : KVV2Config) : KVV2Config × List String :=
  let unknownAttrs := (b.attrs.filter fun a => a.1 ≠ "kvsize" ∧ a.1 ≠ "numkvs").map
    fun a => "Unsupported argument: " ++ a.1
  let unknownBlocks := b.blocks.map fun t => "Unsupported block type: " ++ t
  let kvsize := decodeField b.attrs "kvsize" cur.KVSize
  let numkvs := decodeField b.attrs "numkvs" cur.NumKVs
  ({ KVSize := kvsize.1, NumKVs := numkvs.1 },
    unknownAttrs ++ unknownBlocks ++ kvsize.2 ++ numkvs.2)

/-- The blocks of type `config` of a body. -/
def configBlocks (body : HclBody) : List HclBlock :=
  body.blocks.filter fun b => b.typeName = "config"

/-- Modelled from the spec: `gohcl.DecodeBody` is a library call whose source
is not part of the repository. This is the call
`gohcl.DecodeBody(body, nil, cfg)` for a `*KVV2TestConfig`, whose only field is
the optional block `config`: it returns the struct after decoding and the error
diagnostics. Unknown structure and values of the wrong type are errors, and a
field whose attribute is omitted keeps what it held; with no `config` block the
pointer already in the field is kept. -/
def DecodeBody (body : HclBody) (cfg : KVV2TestConfig) : KVV2TestConfig × List String :=
  let unknownAttrs := body.attrs.map fun a => "Unsupported argument: " ++ a.1
  let unknownBlocks := (body.blocks.filter fun b => b.typeName ≠ "config").map
    fun b => "Unsupported block type: " ++ b.typeName
  let labelled := (body.blocks.filter fun b => b.typeName = "config" ∧ b.labels ≠ []).map
    fun _ => "Extraneous label for config"
  let schemaDiags := unknownAttrs ++ unknownBlocks ++ labelled
  match configBlocks body with
  | [] => (cfg, schemaDiags)
  | [b] =>
    let r := decodeConfigBlock b (cfg.Config.getD { KVSize := 0, NumKVs := 0 })
    ({ Config := some r.1 }, schemaDiags ++ r.2)
  | _ => (cfg, schemaDiags ++ ["Duplicate config block"])

/-- Rendering of `hcl.Diagnostics` by `%v`. -/
def Diagnostics.Error (diags : List String) : String :=
  match diags with
  | [] => "no diagnostics"
  | [d] => d
  | d :: rest => d ++ ", and " ++ toString rest.length ++ " other diagnostic(s)"

/-- The method `KVV2Test.ParseConfig`: the receiver after the call, and the error returned. -/
def ParseConfig (k : KVV2Test) (body : HclBody) : KVV2Test × Option String :=
  let r := DecodeBody body { Config := some { KVSize := 1, NumKVs := 1000 } }
  let k1 := { k with config := some r.1 }
  if r.2 ≠ [] then (k1, some ("error decoding to struct: " ++ Diagnostics.Error r.2))
  else (k1, none)

/-! ## The backend -/

/-- The data of a key write, a map of maps: `secval` in `Setup`. -/
abbrev Payload := List (String × List (String × Int))

/-- What `Setup` and `Cleanup` do to the outside world, in order. -/
inductive Event where
  | mount (path : String) (mountType : String) (options : List (String × String))
  | write (path : String) (data : Payload)
  | delete (path : String)
  | sleep (seconds : Nat)
  deriving DecidableEq, Repr

/-- The `*api.Client`: its address, token and headers, and the backend behind
it, which answers a call made after a history of events with an error or with
success (`none`). -/
structure Client where
  address : String
  token : String
  headers : Header
  respond : List Event → Event → Option String

/-- The result of `Setup`: the ready provider, the error returned, or the end
of the process (a nil dereference, `log.Fatalf`). -/
inductive SetupResult where
  | ready (p : KVV2Test)
  | failed (err : String)
  | crashed (msg : String)
  deriving DecidableEq, Repr

/-- The map `secval` of `Setup`. -/
def secval : Payload := [("data", [("foo", 1)])]

/-- The loop `for i := 1; i <= config.NumKVs; i++` of `Setup`, entered with
counter `i` and history `log`: the history after the loop and the error
returned from inside it, if any. The increment `i++` wraps as Go's `int` does.
The fuel bounds how often the loop condition is evaluated; `none` is a loop
still running when the fuel is used up. -/
def writeLoop (respond : List Event → Event → Option String) (mountPath : String)
    (numKVs : Int) : Nat → Int → List Event → Option (List Event × Option String)
  | 0, _, _ => none
  | fuel + 1, i, log =>
    if i ≤ numKVs then
      let call := Event.write (mountPath ++ "/data/secret-" ++ Itoa i) secval
      match respond log call with
      | some err => some (log ++ [call], some ("error writing kv: " ++ err))
      | none => writeLoop respond mountPath numKVs fuel (toInt64 (i + 1)) (log ++ [call])
    else some (log, none)

/-- The method `KVV2Test.Setup`, run after the history `log`; `genUUID` is the
outcome `uuid.GenerateUUID()` has when called, and `fuel` is the fuel of the
loop over the keys. The result is `none` when that loop has not ended within
the fuel. -/
def Setup (fuel : Nat) (client : Client) (genUUID : Except String String) (log : List Event)
    (k : KVV2Test) (randomMountName : Bool) (mountName : String) :
    Option (List Event × SetupResult) :=
  match k.config with
  | none => some (log, .crashed "nil pointer dereference")
  | some kc =>
    let config := kc.Config
    match (if randomMountName then genUUID else .ok mountName) with
    | .error _ => some (log, .crashed "can't create UUID")
    | .ok mountPath =>
      let mountCall := Event.mount mountPath "kv" [("version", "2")]
      match client.respond log mountCall with
      | some err => some (log ++ [mountCall], .failed ("error mounting kvv2: " ++ err))
      | none =>
        let log1 := log ++ [mountCall, Event.sleep 2]
        match config with
        | none => some (log1, .crashed "nil pointer dereference")
        | some cfg =>
          match writeLoop client.respond mountPath cfg.NumKVs fuel 1 log1 with
          | none => none
          | some (log2, some err) => some (log2, .failed err)
          | some (log2, none) =>
            some (log2, .ready
              { pathPrefix := "/v1/" ++ mountPath
                header := [("X-Vault-Token", [client.token]),
                           ("X-Vault-Namespace", [client.headers.Get "X-Vault-Namespace"])]
                numKVs := cfg.NumKVs
                kvSize := cfg.KVSize })

/-- The method `KVV2Test.Cleanup`, run after the history `log`. -/
def Cleanup (client : Client) (log : List Event) (k : KVV2Test) :
    List Event × Option String :=
  let call := Event.delete (stringsReplace1 k.pathPrefix "/v1/" "/sys/mounts/")
  match client.respond log call with
  | some err => (log ++ [call], some ("error cleaning up mount: " ++ err))
  | none => (log ++ [call], none)

/-! ## Notions used to state the properties -/

/-- The key write that `Setup` issues for index `i` under the mount path `m`. -/
def writeCall (m : String) (i : Int) : Event :=
  Event.write (m ++ "/data/secret-" ++ Itoa i) secval

/-- The key writes for the `n` indices `i, i + 1, ..., i + n - 1`, in increasing order. -/
def writesFrom (m : String) (i : Int) (n : Nat) : List Event :=
  (List.range n).map fun (j : Nat) => writeCall m (i + (j : Int))

/-- The mount call that `Setup` issues for the mount path `m`. -/
def mountCall (m : String) : Event :=
  Event.mount m "kv" [("version", "2")]

/-- The provider that `Setup` returns for the mount path `m` and the configuration `cfg`. -/
def readyProvider (client : Client) (m : String) (cfg : KVV2Config) : KVV2Test :=
  { pathPrefix := "/v1/" ++ m
    header := [("X-Vault-Token", [client.token]),
               ("X-Vault-Namespace", [client.headers.Get "X-Vault-Namespace"])]
    numKVs := cfg.NumKVs
    kvSize := cfg.KVSize }

/-- The history after the mount call for `m` and the pause that follows it. -/
def afterMount (log : List Event) (m : String) : List Event :=
  log ++ [mountCall m, Event.sleep 2]

/-- The writes of `Setup` are accepted up to index `n`: for every index
`1 <= i <= n`, the backend accepts the write for `i` when it comes after the
mount call and the writes for `1 .. i - 1`. -/
def AcceptsWrites (client : Client) (log : List Event) (m : String) (n : Nat) : Prop :=
  ∀ i : Nat, 1 ≤ i → i ≤ n →
    client.respond (afterMount log m ++ writesFrom m 1 (i - 1)) (writeCall m (i : Int)) = none

/-- A client whose backend accepts every call. -/
def acceptAll : Client :=
  { address := "http://vault:8200", token := "root", headers := [], respond := fun _ _ => none }

/-- A client whose backend rejects the call `target` with the error `err` and accepts every other call. -/
def rejectAt (target : Event) (err : String) : Client :=
  { address := "http://vault:8200", token := "root", headers := []
    respond := fun _ e => if e = target then some err else none }

/-- The configuration block `config { kvsize = kvsize, numkvs = numkvs }`. -/
def configBody (kvsize numkvs : HclExpr) : HclBody :=
  { attrs := []
    blocks := [{ typeName := "config", labels := [],
                 attrs := [("kvsize", kvsize), ("numkvs", numkvs)], blocks := [] }] }

/-- The empty configuration block `config {}`. -/
def emptyConfigBody : HclBody :=
  { attrs := []
    blocks := [{ typeName := "config", labels := [], attrs := [], blocks := [] }] }

/-- A provider holding the decoded configuration `KVSize = kvsize`, `NumKVs = numkvs`. -/
def configured (action : String) (kvsize numkvs : Int) : KVV2Test :=
  { action := action, config := some { Config := some { KVSize := kvsize, NumKVs := numkvs } } }

/-- What a field holds after a decode without error: the integer supplied for
the attribute `name`, or `dflt` when the attribute is absent; a value that is
not an integer does not occur. -/
def FieldIs (attrs : List (String × HclExpr)) (name : String) (dflt v : Int) : Prop :=
  match attrs.lookup name with
  | none => v = dflt
  | some (.int n) => v = n
  | some (.other _) => False

/-- The number that a list of decimal digits denotes, continuing from `acc`. -/
def digitsValue (acc : Nat) (ds : List Char) : Nat :=
  ds.foldl (fun a c => 10 * a + (c.toNat - 48)) acc

/-! ## Lemmas on the primitives -/

theorem toInt32_le_of_pos (x : Int) (hx : 1 ≤ x) (h : 0 < toInt32 x) :
    toInt32 x ≤ x ∧ toInt32 x ≤ 2147483647 := by
  simp only [toInt32] at h ⊢
  split_ifs at h ⊢ <;> omega

theorem toInt32_of_small (x : Int) (h0 : 0 ≤ x) (h1 : x ≤ 2147483647) : toInt32 x = x := by
  simp only [toInt32]
  split_ifs <;> omega

theorem Int31n_of_pos (n : Int) (draw : Nat) (h : 0 < n) :
    Int31n n draw = .ok ((draw : Int) % n) := by
  simp [Int31n, not_le.mpr h]

theorem Int31n_of_nonpos (n : Int) (draw : Nat) (h : n ≤ 0) :
    Int31n n draw = .error "invalid argument to Int31n" := by
  simp [Int31n, h]

/-- The index computed by `read` and `write` from a draw: `int(1 + rand.Int31n(int32(numKVs)))`. -/
theorem secnum_eq (n : Int) (draw : Nat) (h : 0 < toInt32 n) :
    toInt32 (1 + (draw : Int) % toInt32 n) = 1 + (draw : Int) % toInt32 n ∧
      0 ≤ (draw : Int) % toInt32 n ∧ (draw : Int) % toInt32 n < toInt32 n := by
  have h0 : 0 ≤ (draw : Int) % toInt32 n := Int.emod_nonneg _ (by omega)
  have h1 : (draw : Int) % toInt32 n < toInt32 n := Int.emod_lt_of_pos _ h
  have h2 : toInt32 n ≤ 2147483647 := by
    simp only [toInt32]
    split_ifs <;> omega
  exact ⟨toInt32_of_small _ (by omega) (by omega), h0, h1⟩

theorem copies_a (n : Nat) : copies "a" n = String.mk (List.replicate n 'a') := by
  induction n with
  | zero => rfl
  | succ n ih =>
    rw [copies, ih, List.replicate_succ]
    rfl

theorem digitChar_value (d : Nat) (h : d < 10) : (Nat.digitChar d).toNat - 48 = d := by
  interval_cases d <;> rfl

theorem toDigitsCore_value :
    ∀ (fuel n : Nat) (ds : List Char), n < fuel →
      digitsValue 0 (Nat.toDigitsCore 10 fuel n ds) = digitsValue n ds := by
  intro fuel
  induction fuel with
  | zero =>
    intro n ds h
    exact absurd h (Nat.not_lt_zero n)
  | succ fuel ih =>
    intro n ds h
    rw [Nat.toDigitsCore]
    have hd := digitChar_value (n % 10) (Nat.mod_lt n (by decide))
    by_cases h0 : n / 10 = 0
    · simp only [h0, if_true, digitsValue, List.foldl_cons, hd]
      congr 1
      omega
    · simp only [h0, if_false]
      rw [ih (n / 10) _ (by omega)]
      simp only [digitsValue, List.foldl_cons, hd]
      congr 1
      omega

theorem toString_nat_injective (a b : Nat) (h : toString a = toString b) : a = b := by
  have ha : digitsValue 0 (Nat.toDigits 10 a) = a := toDigitsCore_value (a + 1) a [] (by omega)
  have hb : digitsValue 0 (Nat.toDigits 10 b) = b := toDigitsCore_value (b + 1) b [] (by omega)
  have hdata : Nat.toDigits 10 a = Nat.toDigits 10 b := congrArg String.data h
  rw [← ha, ← hb, hdata]

/-- The decimal rendering tells non-negative numbers apart. -/
theorem Itoa_injective (i j : Int) (hi : 0 ≤ i) (hj : 0 ≤ j) (h : Itoa i = Itoa j) : i = j := by
  simp only [Itoa, not_lt.mpr hi, not_lt.mpr hj, if_false] at h
  have := toString_nat_injective _ _ h
  omega

theorem read_of_pos (k : KVV2Test) (address : String) (draw : Nat)
    (h : 0 < toInt32 k.numKVs) :
    read k address draw = .ok
      { Method := "GET"
        URL := address ++ k.pathPrefix ++ "/data/secret-" ++
          Itoa (1 + (draw : Int) % toInt32 k.numKVs)
        Header := k.header
        Body := "" } := by
  simp only [read, Int31n_of_pos _ _ h, (secnum_eq k.numKVs draw h).1]

theorem read_of_nonpos (k : KVV2Test) (address : String) (draw : Nat)
    (h : toInt32 k.numKVs ≤ 0) :
    read k address draw = .error "invalid argument to Int31n" := by
  simp only [read, Int31n_of_nonpos _ _ h]

theorem write_of_pos (k : KVV2Test) (address : String) (draw : Nat)
    (h : 0 < toInt32 k.numKVs) (hs : 0 ≤ k.kvSize) :
    write k address draw = .ok
      { Method := "POST"
        URL := address ++ k.pathPrefix ++ "/data/secret-" ++
          Itoa (1 + (draw : Int) % toInt32 k.numKVs)
        Header := k.header
        Body := "\x7b\"data\": \x7b\"foo\": \"" ++ String.mk (List.replicate k.kvSize.toNat 'a') ++
          "\"\x7d\x7d" } := by
  simp only [write, Int31n_of_pos _ _ h, (secnum_eq k.numKVs draw h).1, Repeat,
    not_lt.mpr hs, if_false, copies_a]

theorem write_of_nonpos (k : KVV2Test) (address : String) (draw : Nat)
    (h : toInt32 k.numKVs ≤ 0) :
    write k address draw = .error "invalid argument to Int31n" := by
  simp only [write, Int31n_of_nonpos _ _ h]

theorem write_of_neg_size (k : KVV2Test) (address : String) (draw : Nat)
    (h : 0 < toInt32 k.numKVs) (hs : k.kvSize < 0) :
    write k address draw = .error "strings: negative Repeat count" := by
  simp only [write, Int31n_of_pos _ _ h, Repeat, hs, if_true]

theorem Int31n_of_mem (n r : Int) (h0 : 0 ≤ r) (h1 : r < n) :
    Int31n n r.toNat = .ok r := by
  rw [Int31n_of_pos n _ (by omega), Int.toNat_of_nonneg h0, Int.emod_eq_of_lt h0 h1]

/-! ## Target generation: properties -/

/-- C2: for a provider with `numKVs >= 1`, every target that `read` or `write`
produces, whatever the draw, has a URL ending in `/data/secret-` followed by the
decimal rendering of an index `idx` with `1 <= idx <= numKVs`; that index is one
plus the value drawn by `rand.Int31n(int32(numKVs))`. -/
theorem C2_index_in_range (k : KVV2Test) (address : String) (draw : Nat) (t : vegeta.Target)
    (hn : 1 ≤ k.numKVs)
    (ht : read k address draw = .ok t ∨ write k address draw = .ok t) :
    ∃ idx : Int, 1 ≤ idx ∧ idx ≤ k.numKVs ∧
      Int31n (toInt32 k.numKVs) draw = .ok (idx - 1) ∧
      t.URL = address ++ k.pathPrefix ++ "/data/secret-" ++ Itoa idx := by
  by_cases hpos : 0 < toInt32 k.numKVs
  · obtain ⟨_, h0, h1⟩ := secnum_eq k.numKVs draw hpos
    have hle := (toInt32_le_of_pos k.numKVs hn hpos).1
    refine ⟨1 + (draw : Int) % toInt32 k.numKVs, by omega, by omega, ?_, ?_⟩
    · rw [Int31n_of_pos _ _ hpos,
        show 1 + (draw : Int) % toInt32 k.numKVs - 1 = (draw : Int) % toInt32 k.numKVs by omega]
    · rcases ht with ht | ht
      · rw [read_of_pos k address draw hpos] at ht
        cases ht
        rfl
      · by_cases hs : 0 ≤ k.kvSize
        · rw [write_of_pos k address draw hpos hs] at ht
          cases ht
          rfl
        · rw [write_of_neg_size k address draw hpos (by omega)] at ht
          cases ht
  · exfalso
    rcases ht with ht | ht
    · rw [read_of_nonpos k address draw (by omega)] at ht
      cases ht
    · rw [write_of_nonpos k address draw (by omega)] at ht
      cases ht

/-- C2 at the provider with five keys and the draw 7: the index is 3. -/
theorem C2_index_in_range_witness :
    ∃ idx : Int, 1 ≤ idx ∧ idx ≤ 5 ∧
      Int31n (toInt32 5) 7 = .ok (idx - 1) ∧
      "http://x/v1/m/data/secret-3" = "http://x" ++ "/v1/m" ++ "/data/secret-" ++ Itoa idx :=
  C2_index_in_range { numKVs := 5, pathPrefix := "/v1/m" } "http://x" 7
    { Method := "GET", URL := "http://x/v1/m/data/secret-3", Header := [], Body := "" }
    (by decide) (Or.inl rfl)

/-- C4: for a provider with `kvSize >= 1` and `numKVs >= 1`, the body of every
target that `write` produces is the 18 bytes `{"data": {"foo": "`, then `kvSize`
copies of `a`, then the 3 bytes `"}}`; its length is `21 + kvSize`, the string
between the quotes has length `kvSize`, and the method is POST. -/
theorem C4_write_body (k : KVV2Test) (address : String) (draw : Nat) (t : vegeta.Target)
    (hs : 1 ≤ k.kvSize) (ht : write k address draw = .ok t) :
    t.Body = "\x7b\"data\": \x7b\"foo\": \"" ++ String.mk (List.replicate k.kvSize.toNat 'a') ++ "\"\x7d\x7d" ∧
      ((String.mk (List.replicate k.kvSize.toNat 'a')).length : Int) = k.kvSize ∧
      (t.Body.length : Int) = 21 + k.kvSize ∧
      t.Method = "POST" := by
  have hlen : ((String.mk (List.replicate k.kvSize.toNat 'a')).length : Int) = k.kvSize := by
    simp only [String.length, List.length_replicate]
    omega
  by_cases hpos : 0 < toInt32 k.numKVs
  · rw [write_of_pos k address draw hpos (by omega)] at ht
    cases ht
    refine ⟨rfl, hlen, ?_, rfl⟩
    simp only [String.length_append]
    have h1 : "\x7b\"data\": \x7b\"foo\": \"".length = 18 := by decide
    have h2 : "\"\x7d\x7d".length = 3 := by decide
    simp only [h1, h2]
    push_cast
    rw [hlen]
    omega
  · rw [write_of_nonpos k address draw (by omega)] at ht
    cases ht

/-- C4 at `kvSize = 3`: the body is `{"data": {"foo": "aaa"}}`, of 24 bytes. -/
theorem C4_write_body_witness :
    "\x7b\"data\": \x7b\"foo\": \"aaa\"\x7d\x7d" =
        "\x7b\"data\": \x7b\"foo\": \"" ++ String.mk (List.replicate (3 : Int).toNat 'a') ++ "\"\x7d\x7d" ∧
      ((String.mk (List.replicate (3 : Int).toNat 'a')).length : Int) = 3 ∧
      ("\x7b\"data\": \x7b\"foo\": \"aaa\"\x7d\x7d".length : Int) = 21 + 3 ∧
      "POST" = "POST" :=
  C4_write_body { numKVs := 5, kvSize := 3, pathPrefix := "/v1/m" } "http://x" 7
    { Method := "POST", URL := "http://x/v1/m/data/secret-3", Header := [],
      Body := "\x7b\"data\": \x7b\"foo\": \"aaa\"\x7d\x7d" }
    (by decide) rfl

/-- C5: every target that `Target` produces has the provider's header set and
the URL `address + pathPrefix + "/data/secret-" + Itoa(1 + r)`, where `r` is the
value drawn by `rand.Int31n(int32(numKVs))`; when the action is not `write`
(read mode) the method is GET and the body is empty, and in write mode the
method is POST. -/
theorem C5_target_shape (k : KVV2Test) (address : String) (draw : Nat) (t : vegeta.Target)
    (ht : Target k address draw = .ok t) :
    ∃ r : Int, Int31n (toInt32 k.numKVs) draw = .ok r ∧
      t.URL = address ++ k.pathPrefix ++ "/data/secret-" ++ Itoa (1 + r) ∧
      t.Header = k.header ∧
      (k.action ≠ "write" → t.Method = "GET" ∧ t.Body = "") ∧
      (k.action = "write" → t.Method = "POST") := by
  by_cases hpos : 0 < toInt32 k.numKVs
  · refine ⟨(draw : Int) % toInt32 k.numKVs, Int31n_of_pos _ _ hpos, ?_⟩
    by_cases ha : k.action = "write"
    · simp only [Target, ha, if_true] at ht
      by_cases hs : 0 ≤ k.kvSize
      · rw [write_of_pos k address draw hpos hs] at ht
        cases ht
        exact ⟨rfl, rfl, fun h => absurd ha h, fun _ => rfl⟩
      · rw [write_of_neg_size k address draw hpos (by omega)] at ht
        cases ht
    · simp only [Target, ha, if_false] at ht
      rw [read_of_pos k address draw hpos] at ht
      cases ht
      exact ⟨rfl, rfl, fun _ => ⟨rfl, rfl⟩, fun h => absurd h ha⟩
  · exfalso
    by_cases ha : k.action = "write"
    · simp only [Target, ha, if_true] at ht
      rw [write_of_nonpos k address draw (by omega)] at ht
      cases ht
    · simp only [Target, ha, if_false] at ht
      rw [read_of_nonpos k address draw (by omega)] at ht
      cases ht

/-- C5 at a read-mode provider with five keys and the draw 7. -/
theorem C5_target_shape_witness :
    ∃ r : Int, Int31n (toInt32 5) 7 = .ok r ∧
      "http://x/v1/m/data/secret-3" = "http://x" ++ "/v1/m" ++ "/data/secret-" ++ Itoa (1 + r) ∧
      [("X-Vault-Token", ["t"])] = [("X-Vault-Token", ["t"])] ∧
      ("read" ≠ "write" → "GET" = "GET" ∧ "" = "") ∧
      ("read" = "write" → "GET" = "POST") :=
  C5_target_shape
    { numKVs := 5, pathPrefix := "/v1/m", action := "read", header := [("X-Vault-Token", ["t"])] }
    "http://x" 7
    { Method := "GET", URL := "http://x/v1/m/data/secret-3",
      Header := [("X-Vault-Token", ["t"])], Body := "" }
    rfl

/-! ## Setup: the calls it makes -/

theorem writesFrom_length (m : String) (i : Int) (n : Nat) : (writesFrom m i n).length = n := by
  simp only [writesFrom, List.length_map, List.length_range]

theorem writesFrom_zero (m : String) (i : Int) : writesFrom m i 0 = [] := rfl

theorem writesFrom_succ (m : String) (i : Int) (n : Nat) :
    writesFrom m i (n + 1) = writesFrom m i n ++ [writeCall m (i + (n : Int))] := by
  simp [writesFrom, List.range_succ]

theorem writesFrom_cons (m : String) (i : Int) (n : Nat) :
    writesFrom m i (n + 1) = writeCall m i :: writesFrom m (i + 1) n := by
  have h0 : writeCall m (i + ((0 : Nat) : Int)) = writeCall m i := by simp
  have hj : ∀ j : Nat, writeCall m (i + ((j + 1 : Nat) : Int)) = writeCall m (i + 1 + (j : Int)) := by
    intro j
    congr 1
    push_cast
    ring
  simp only [writesFrom, List.range_succ_eq_map, List.map_cons, List.map_map,
    Function.comp_def, Nat.succ_eq_add_one, h0, hj]

theorem writeCall_injective (m : String) (i j : Int) (hi : 0 ≤ i) (hj : 0 ≤ j)
    (h : writeCall m i = writeCall m j) : i = j := by
  simp only [writeCall, Event.write.injEq, and_true] at h
  have hd := congrArg String.data h
  simp only [String.data_append] at hd
  exact Itoa_injective i j hi hj (String.ext (List.append_cancel_left hd))

/-- The writes for the indices `1 .. n` go to `n` different paths. -/
theorem writesFrom_nodup (m : String) (n : Nat) : (writesFrom m 1 n).Nodup := by
  unfold writesFrom
  refine (List.nodup_range n).map_on fun x _ y _ h => ?_
  have := writeCall_injective m _ _ (by omega) (by omega) h
  omega

theorem toInt64_of_range (x : Int) (h0 : -9223372036854775808 ≤ x)
    (h1 : x ≤ 9223372036854775807) : toInt64 x = x := by
  simp only [toInt64]
  split_ifs <;> omega

theorem toInt64_range (x : Int) :
    -9223372036854775808 ≤ toInt64 x ∧ toInt64 x ≤ 9223372036854775807 := by
  simp only [toInt64]
  split_ifs <;> omega

theorem writeLoop_step_accept (respond : List Event → Event → Option String) (m : String)
    (numKVs : Int) (fuel : Nat) (i : Int) (log : List Event) (hi : i ≤ numKVs)
    (hr : respond log (writeCall m i) = none) :
    writeLoop respond m numKVs (fuel + 1) i log =
      writeLoop respond m numKVs fuel (toInt64 (i + 1)) (log ++ [writeCall m i]) := by
  rw [writeLoop, if_pos hi]
  simp only [writeCall] at hr
  simp only [hr, writeCall]

theorem writeLoop_step_reject (respond : List Event → Event → Option String) (m : String)
    (numKVs : Int) (fuel : Nat) (i : Int) (log : List Event) (e : String) (hi : i ≤ numKVs)
    (hr : respond log (writeCall m i) = some e) :
    writeLoop respond m numKVs (fuel + 1) i log =
      some (log ++ [writeCall m i], some ("error writing kv: " ++ e)) := by
  rw [writeLoop, if_pos hi]
  simp only [writeCall] at hr
  simp only [hr, writeCall]

theorem writeLoop_step_exit (respond : List Event → Event → Option String) (m : String)
    (numKVs : Int) (fuel : Nat) (i : Int) (log : List Event) (hi : ¬ i ≤ numKVs) :
    writeLoop respond m numKVs (fuel + 1) i log = some (log, none) := by
  rw [writeLoop, if_neg hi]

/-- A run of `n` accepted writes: when the loop is entered at `i`, the next `n`
indices are within `numKVs` and within the range of `int`, and the backend
accepts their writes, the loop issues these writes and goes on at `i + n`. -/
theorem writeLoop_run (respond : List Event → Event → Option String) (m : String)
    (numKVs : Int) (fuel : Nat) :
    ∀ (n : Nat) (i : Int) (log : List Event), -9223372036854775808 ≤ i →
      (0 < n → i + (n : Int) ≤ numKVs + 1) → i + (n : Int) ≤ 9223372036854775807 →
      (∀ j < n, respond (log ++ writesFrom m i j) (writeCall m (i + (j : Int))) = none) →
      writeLoop respond m numKVs (fuel + n) i log =
        writeLoop respond m numKVs fuel (i + (n : Int)) (log ++ writesFrom m i n) := by
  intro n
  induction n with
  | zero =>
    intro i log _ _ _ _
    simp [writesFrom_zero]
  | succ n ih =>
    intro i log hlow hle hmax hacc
    have hle := hle (Nat.succ_pos n)
    have h0 : respond log (writeCall m i) = none := by
      have := hacc 0 (Nat.succ_pos n)
      simpa [writesFrom_zero] using this
    have hidx : ∀ j : Nat, i + 1 + (j : Int) = i + ((j + 1 : Nat) : Int) := by
      intro j
      push_cast
      ring
    have hshift : ∀ j : Nat, (log ++ [writeCall m i]) ++ writesFrom m (i + 1) j =
        log ++ writesFrom m i (j + 1) := by
      intro j
      rw [writesFrom_cons, List.append_assoc, List.singleton_append]
    rw [show fuel + (n + 1) = (fuel + n) + 1 by omega,
      writeLoop_step_accept respond m numKVs (fuel + n) i log (by omega) h0,
      toInt64_of_range (i + 1) (by omega) (by omega),
      ih (i + 1) (log ++ [writeCall m i]) (by omega) (fun _ => by push_cast at hle ⊢; omega)
        (by push_cast at hmax ⊢; omega)
        (fun j hj => by
          have := hacc (j + 1) (by omega)
          rwa [← hshift, ← hidx] at this),
      hshift, hidx]

/-- A loop that ends without an error has issued the writes for every index
from `i` to `numKVs`, all accepted, and `numKVs`, when it is not below `i`, is
below the largest `int`: with `numKVs` the largest `int` the counter wraps and
the condition never fails. -/
theorem writeLoop_none_inv (respond : List Event → Event → Option String) (m : String)
    (numKVs : Int) :
    ∀ (fuel : Nat) (i : Int) (log log' : List Event), -9223372036854775808 ≤ i →
      i ≤ 9223372036854775807 →
      writeLoop respond m numKVs fuel i log = some (log', none) →
      (∀ j < (numKVs + 1 - i).toNat,
        respond (log ++ writesFrom m i j) (writeCall m (i + (j : Int))) = none) ∧
      log' = log ++ writesFrom m i (numKVs + 1 - i).toNat ∧
      (i ≤ numKVs → numKVs < 9223372036854775807) := by
  intro fuel
  induction fuel with
  | zero =>
    intro i log log' _ _ h
    simp [writeLoop] at h
  | succ fuel ih =>
    intro i log log' hlow hhigh h
    by_cases hi : i ≤ numKVs
    · cases hr : respond log (writeCall m i) with
      | some e =>
        rw [writeLoop_step_reject respond m numKVs fuel i log e hi hr] at h
        simp at h
      | none =>
        rw [writeLoop_step_accept respond m numKVs fuel i log hi hr] at h
        obtain ⟨r0, r1⟩ := toInt64_range (i + 1)
        obtain ⟨hacc, hlog, hmax⟩ := ih _ _ _ r0 r1 h
        by_cases hwrap : i < 9223372036854775807
        · rw [toInt64_of_range (i + 1) (by omega) (by omega)] at hacc hlog hmax
          have hn : (numKVs + 1 - i).toNat = (numKVs + 1 - (i + 1)).toNat + 1 := by omega
          have hidx : ∀ j : Nat, i + 1 + (j : Int) = i + ((j + 1 : Nat) : Int) := by
            intro j
            push_cast
            ring
          have hshift : ∀ j : Nat, (log ++ [writeCall m i]) ++ writesFrom m (i + 1) j =
              log ++ writesFrom m i (j + 1) := by
            intro j
            rw [writesFrom_cons, List.append_assoc, List.singleton_append]
          refine ⟨fun j hj => ?_, ?_, fun _ => ?_⟩
          · cases j with
            | zero => simpa [writesFrom_zero] using hr
            | succ j =>
              have := hacc j (by omega)
              rwa [hshift, hidx] at this
          · rw [hlog, hn, hshift]
          · by_cases hnext : i + 1 ≤ numKVs
            · exact hmax hnext
            · omega
        · exfalso
          have hi' : i = 9223372036854775807 := by omega
          subst hi'
          have hw : toInt64 (9223372036854775807 + 1) = -9223372036854775808 := by decide
          rw [hw] at hmax
          have := hmax (by omega)
          omega
    · rw [writeLoop_step_exit respond m numKVs fuel i log hi] at h
      simp only [Option.some.injEq, Prod.mk.injEq, and_true] at h
      have hn : (numKVs + 1 - i).toNat = 0 := by omega
      rw [hn]
      exact ⟨fun j hj => absurd hj (Nat.not_lt_zero j), by simp [writesFrom_zero, h],
        fun h' => absurd h' hi⟩

/-- More fuel does not change a result. -/
theorem writeLoop_mono (respond : List Event → Event → Option String) (m : String)
    (numKVs : Int) (extra : Nat) :
    ∀ (fuel : Nat) (i : Int) (log : List Event) (r : List Event × Option String),
      writeLoop respond m numKVs fuel i log = some r →
      writeLoop respond m numKVs (fuel + extra) i log = some r := by
  intro fuel
  induction fuel with
  | zero =>
    intro i log r h
    simp [writeLoop] at h
  | succ fuel ih =>
    intro i log r h
    rw [show fuel + 1 + extra = (fuel + extra) + 1 by omega]
    by_cases hi : i ≤ numKVs
    · cases hr : respond log (writeCall m i) with
      | some e =>
        rw [writeLoop_step_reject respond m numKVs _ i log e hi hr] at h ⊢
        exact h
      | none =>
        rw [writeLoop_step_accept respond m numKVs _ i log hi hr] at h ⊢
        exact ih _ _ _ h
    · rw [writeLoop_step_exit respond m numKVs _ i log hi] at h ⊢
      exact h

theorem Setup_unfold (fuel : Nat) (client : Client) (genUUID : Except String String)
    (log : List Event) (k : KVV2Test) (cfg : KVV2Config) (rnd : Bool) (mountName m : String)
    (hc : k.config = some { Config := some cfg })
    (hm : (if rnd = true then genUUID else Except.ok mountName) = .ok m) :
    Setup fuel client genUUID log k rnd mountName =
      match client.respond log (mountCall m) with
      | some err => some (log ++ [mountCall m], .failed ("error mounting kvv2: " ++ err))
      | none =>
        match writeLoop client.respond m cfg.NumKVs fuel 1 (afterMount log m) with
        | none => none
        | some (log2, some err) => some (log2, .failed err)
        | some (log2, none) => some (log2, .ready (readyProvider client m cfg)) := by
  simp only [Setup, hc, hm, mountCall, afterMount, readyProvider]

theorem Setup_mount_rejected (fuel : Nat) (client : Client) (genUUID : Except String String)
    (log : List Event) (k : KVV2Test) (cfg : KVV2Config) (rnd : Bool) (mountName m e : String)
    (hc : k.config = some { Config := some cfg })
    (hm : (if rnd = true then genUUID else Except.ok mountName) = .ok m)
    (hmount : client.respond log (mountCall m) = some e) :
    Setup fuel client genUUID log k rnd mountName =
      some (log ++ [mountCall m], .failed ("error mounting kvv2: " ++ e)) := by
  rw [Setup_unfold fuel client genUUID log k cfg rnd mountName m hc hm, hmount]

theorem acceptsWrites_iff (client : Client) (log : List Event) (m : String) (n : Nat) :
    AcceptsWrites client log m n ↔
      ∀ j < n, client.respond (afterMount log m ++ writesFrom m 1 j)
        (writeCall m (1 + (j : Int))) = none := by
  constructor
  · intro h j hj
    have := h (j + 1) (by omega) (by omega)
    rw [Nat.add_sub_cancel] at this
    rw [← this]
    congr 2
    push_cast
    ring
  · intro h i h1 hn
    have := h (i - 1) (by omega)
    rw [← this]
    congr 2
    omega

theorem Setup_all_accepted (fuel : Nat) (client : Client) (genUUID : Except String String)
    (log : List Event) (k : KVV2Test) (cfg : KVV2Config) (rnd : Bool) (mountName m : String)
    (hc : k.config = some { Config := some cfg })
    (hm : (if rnd = true then genUUID else Except.ok mountName) = .ok m)
    (hmax : cfg.NumKVs < 9223372036854775807)
    (hfuel : cfg.NumKVs.toNat < fuel)
    (hmount : client.respond log (mountCall m) = none)
    (hw : AcceptsWrites client log m cfg.NumKVs.toNat) :
    Setup fuel client genUUID log k rnd mountName =
      some (afterMount log m ++ writesFrom m 1 cfg.NumKVs.toNat,
        .ready (readyProvider client m cfg)) := by
  rw [Setup_unfold fuel client genUUID log k cfg rnd mountName m hc hm, hmount]
  rw [acceptsWrites_iff] at hw
  obtain ⟨f, rfl⟩ : ∃ f, fuel = (f + 1) + cfg.NumKVs.toNat := ⟨fuel - cfg.NumKVs.toNat - 1, by omega⟩
  rw [writeLoop_run client.respond m cfg.NumKVs (f + 1) cfg.NumKVs.toNat 1 (afterMount log m)
    (by omega) (fun _ => by omega) (by omega) hw,
    writeLoop_step_exit client.respond m cfg.NumKVs f _ _ (by omega)]

theorem Setup_write_rejected (fuel : Nat) (client : Client) (genUUID : Except String String)
    (log : List Event) (k : KVV2Test) (cfg : KVV2Config) (rnd : Bool) (mountName m e : String)
    (j : Nat)
    (hc : k.config = some { Config := some cfg })
    (hm : (if rnd = true then genUUID else Except.ok mountName) = .ok m)
    (hint : cfg.NumKVs ≤ 9223372036854775807)
    (hfuel : j ≤ fuel)
    (hmount : client.respond log (mountCall m) = none)
    (hj1 : 1 ≤ j) (hjn : (j : Int) ≤ cfg.NumKVs)
    (hw : AcceptsWrites client log m (j - 1))
    (hrej : client.respond (afterMount log m ++ writesFrom m 1 (j - 1)) (writeCall m (j : Int))
      = some e) :
    Setup fuel client genUUID log k rnd mountName =
      some (afterMount log m ++ writesFrom m 1 j, .failed ("error writing kv: " ++ e)) := by
  rw [Setup_unfold fuel client genUUID log k cfg rnd mountName m hc hm, hmount]
  rw [acceptsWrites_iff] at hw
  have hcast : (1 : Int) + ((j - 1 : Nat) : Int) = (j : Int) := by omega
  obtain ⟨f, rfl⟩ : ∃ f, fuel = (f + 1) + (j - 1) := ⟨fuel - j, by omega⟩
  rw [writeLoop_run client.respond m cfg.NumKVs (f + 1) (j - 1) 1 (afterMount log m)
    (by omega) (fun _ => by omega) (by omega) hw, hcast,
    writeLoop_step_reject client.respond m cfg.NumKVs f _ _ e hjn hrej]
  have hj : j = (j - 1) + 1 := by omega
  conv_rhs => rw [hj, writesFrom_succ, hcast]
  simp only [List.append_assoc]

theorem Setup_ready_inv (fuel : Nat) (client : Client) (genUUID : Except String String)
    (log log' : List Event) (k p : KVV2Test) (rnd : Bool) (mountName : String)
    (h : Setup fuel client genUUID log k rnd mountName = some (log', .ready p)) :
    ∃ cfg m, k.config = some { Config := some cfg } ∧
      (if rnd = true then genUUID else Except.ok mountName) = .ok m ∧
      client.respond log (mountCall m) = none ∧
      AcceptsWrites client log m cfg.NumKVs.toNat ∧
      log' = afterMount log m ++ writesFrom m 1 cfg.NumKVs.toNat ∧
      p = readyProvider client m cfg ∧
      (1 ≤ cfg.NumKVs → cfg.NumKVs < 9223372036854775807) := by
  rcases hk : k.config with _ | ⟨_ | cfg⟩
  · simp [Setup, hk] at h
  · simp only [Setup, hk] at h
    split at h
    · simp at h
    · split at h <;> simp at h
  · rcases hm : (if rnd = true then genUUID else Except.ok mountName) with e | m
    · simp [Setup, hk, hm] at h
    · rw [Setup_unfold fuel client genUUID log k cfg rnd mountName m hk hm] at h
      cases hmount : client.respond log (mountCall m) with
      | some e => simp [hmount] at h
      | none =>
        rw [hmount] at h
        refine ⟨cfg, m, rfl, rfl, hmount, ?_⟩
        rcases hl : writeLoop client.respond m cfg.NumKVs fuel 1 (afterMount log m)
          with _ | ⟨log2, _ | err⟩
        · simp [hl] at h
        · simp only [hl, Option.some.injEq, Prod.mk.injEq, SetupResult.ready.injEq] at h
          obtain ⟨hacc, hlog, hmax⟩ := writeLoop_none_inv client.respond m cfg.NumKVs fuel 1
            (afterMount log m) log2 (by omega) (by omega) hl
          have hn : (cfg.NumKVs + 1 - 1).toNat = cfg.NumKVs.toNat := by omega
          rw [hn] at hacc hlog
          exact ⟨(acceptsWrites_iff _ _ _ _).mpr hacc, by rw [← h.1, hlog], h.2.symm, hmax⟩
        · simp [hl] at h

/-- More fuel does not change what `Setup` returns. -/
theorem Setup_mono (fuel extra : Nat) (client : Client) (genUUID : Except String String)
    (log : List Event) (k : KVV2Test) (rnd : Bool) (mountName : String)
    (r : List Event × SetupResult)
    (h : Setup fuel client genUUID log k rnd mountName = some r) :
    Setup (fuel + extra) client genUUID log k rnd mountName = some r := by
  rcases hk : k.config with _ | ⟨_ | cfg⟩
  · simpa [Setup, hk] using h
  · simp only [Setup, hk] at h ⊢
    exact h
  · rcases hm : (if rnd = true then genUUID else Except.ok mountName) with e | m
    · simpa [Setup, hk, hm] using h
    · rw [Setup_unfold _ client genUUID log k cfg rnd mountName m hk hm] at h ⊢
      cases hmount : client.respond log (mountCall m) with
      | some e =>
        simp only [hmount] at h ⊢
        exact h
      | none =>
        simp only [hmount] at h ⊢
        rcases hl : writeLoop client.respond m cfg.NumKVs fuel 1 (afterMount log m) with _ | r2
        · simp [hl] at h
        · rw [writeLoop_mono client.respond m cfg.NumKVs extra fuel 1 _ r2 hl]
          rw [hl] at h
          exact h

/-! ## Setup: properties -/

/-- C6, as the code has it: for `1 <= NumKVs` below the largest `int` and a
mount name `m`, when the backend accepts the mount call and every write,
`Setup`, given fuel for the `NumKVs + 1` evaluations of its loop condition,
issues the mount call, pauses, and then issues exactly `NumKVs` key writes, the
`i`-th of them, for `i = 1 .. NumKVs`, to the path
`m + "/data/secret-" + Itoa(i)` with the payload `{"data": {"foo": 1}}`; these
paths are pairwise different, and `Setup` then returns a ready provider. -/
theorem C6_setup_writes (fuel : Nat) (client : Client) (genUUID : Except String String)
    (log : List Event) (k : KVV2Test) (cfg : KVV2Config) (m : String)
    (hc : k.config = some { Config := some cfg })
    (hn : 1 ≤ cfg.NumKVs)
    (hmax : cfg.NumKVs < 9223372036854775807)
    (hfuel : cfg.NumKVs.toNat < fuel)
    (hmount : client.respond log (mountCall m) = none)
    (hw : AcceptsWrites client log m cfg.NumKVs.toNat) :
    (∃ p, Setup fuel client genUUID log k false m =
      some (log ++ [mountCall m, Event.sleep 2] ++ writesFrom m 1 cfg.NumKVs.toNat, .ready p)) ∧
    ((writesFrom m 1 cfg.NumKVs.toNat).length : Int) = cfg.NumKVs ∧
    (writesFrom m 1 cfg.NumKVs.toNat).Nodup ∧
    ∀ i : Nat, 1 ≤ i → (i : Int) ≤ cfg.NumKVs →
      (writesFrom m 1 cfg.NumKVs.toNat)[i - 1]? =
        some (Event.write (m ++ "/data/secret-" ++ Itoa (i : Int)) [("data", [("foo", 1)])]) := by
  refine ⟨⟨readyProvider client m cfg, ?_⟩, ?_, writesFrom_nodup m _, ?_⟩
  · exact Setup_all_accepted fuel client genUUID log k cfg false m m hc rfl hmax hfuel hmount hw
  · rw [writesFrom_length]
    omega
  · intro i h1 hi
    have hlt : i - 1 < cfg.NumKVs.toNat := by omega
    have hcast : (1 : Int) + ((i - 1 : Nat) : Int) = (i : Int) := by omega
    simp only [writesFrom, List.getElem?_map, List.getElem?_range hlt, Option.map_some', hcast,
      writeCall, secval]

/-- C6 as the code has it, at `NumKVs = 2` and the mount name `m`, with a
backend that accepts every call: two writes, the second to `m/data/secret-2`. -/
theorem C6_setup_writes_witness :
    (∃ p, Setup 3 acceptAll (.ok "u") [] (configured "read" 1 2) false "m" =
      some ([] ++ [mountCall "m", Event.sleep 2] ++ writesFrom "m" 1 (2 : Int).toNat,
        .ready p)) ∧
    ((writesFrom "m" 1 (2 : Int).toNat).length : Int) = 2 ∧
    (writesFrom "m" 1 (2 : Int).toNat).Nodup ∧
    (writesFrom "m" 1 (2 : Int).toNat)[2 - 1]? =
      some (Event.write ("m" ++ "/data/secret-" ++ Itoa ((2 : Nat) : Int))
        [("data", [("foo", 1)])]) :=
  have h := C6_setup_writes 3 acceptAll (.ok "u") [] (configured "read" 1 2)
    { KVSize := 1, NumKVs := 2 } "m" rfl (by decide) (by decide) (by decide) rfl
    (fun _ _ _ => rfl)
  ⟨h.1, h.2.1, h.2.2.1, h.2.2.2 2 (by decide) (by decide)⟩

/-- C6 fails as stated: with `NumKVs` the largest `int` and a backend that
accepts every call, the counter of the loop wraps after the write for index
`9223372036854775807` and the condition `i <= NumKVs` never fails, so `Setup`
returns no ready provider, however much fuel it is given; the write that
follows index `9223372036854775807` is the one for `-9223372036854775808`. -/
theorem C6_max_int_never_ready :
    (1 : Int) ≤ 9223372036854775807 ∧
    AcceptsWrites acceptAll [] "m" (9223372036854775807 : Int).toNat ∧
    (¬ ∃ fuel log p, Setup fuel acceptAll (.ok "u") []
      (configured "read" 1 9223372036854775807) false "m" = some (log, .ready p)) ∧
    writeLoop (rejectAt (writeCall "m" (-9223372036854775808)) "stop").respond "m"
        9223372036854775807 2 9223372036854775807 [] =
      some ([writeCall "m" 9223372036854775807, writeCall "m" (-9223372036854775808)],
        some "error writing kv: stop") := by
  refine ⟨by decide, fun _ _ _ => rfl, ?_, ?_⟩
  · rintro ⟨fuel, log, p, h⟩
    obtain ⟨cfg, m, hc, _, _, _, _, _, hmax⟩ :=
      Setup_ready_inv fuel acceptAll (.ok "u") [] log _ p false "m" h
    simp only [configured, Option.some.injEq, KVV2TestConfig.mk.injEq] at hc
    subst hc
    exact absurd (hmax (by decide)) (by decide)
  · rw [writeLoop_step_accept _ "m" _ 1 _ [] (by decide) (by decide),
      show toInt64 (9223372036854775807 + 1) = -9223372036854775808 by decide,
      writeLoop_step_reject _ "m" _ 0 _ _ "stop" (by decide) (by simp [rejectAt])]
    rfl

/-- C7: `Setup` stops at the first backend failure. If the mount call is
rejected, it returns the error `error mounting kvv2: ...` having issued the
mount call and nothing else. If the mount call is accepted and the first
rejected write is the one for index `j`, `1 <= j <= NumKVs` with `NumKVs` an
`int`, it returns an error, given fuel for `j` evaluations of the loop
condition, having issued exactly the writes for `1 .. j`, in order. It returns
a ready provider only if the mount call and all `NumKVs` writes were accepted. -/
theorem C7_setup_fail_fast (fuel : Nat) (client : Client) (genUUID : Except String String)
    (log : List Event) (k : KVV2Test) (cfg : KVV2Config) (m : String)
    (hc : k.config = some { Config := some cfg }) :
    (∀ e, client.respond log (mountCall m) = some e →
      Setup fuel client genUUID log k false m =
        some (log ++ [mountCall m], .failed ("error mounting kvv2: " ++ e))) ∧
    (∀ (j : Nat) (e : String), client.respond log (mountCall m) = none →
      1 ≤ j → (j : Int) ≤ cfg.NumKVs → cfg.NumKVs ≤ 9223372036854775807 → j ≤ fuel →
      AcceptsWrites client log m (j - 1) →
      client.respond (afterMount log m ++ writesFrom m 1 (j - 1)) (writeCall m (j : Int))
        = some e →
      ∃ msg, Setup fuel client genUUID log k false m =
        some (log ++ [mountCall m, Event.sleep 2] ++ writesFrom m 1 j, .failed msg)) ∧
    (∀ log' p, Setup fuel client genUUID log k false m = some (log', .ready p) →
      client.respond log (mountCall m) = none ∧
      AcceptsWrites client log m cfg.NumKVs.toNat ∧
      log' = log ++ [mountCall m, Event.sleep 2] ++ writesFrom m 1 cfg.NumKVs.toNat) := by
  refine ⟨fun e he => ?_, fun j e hmount hj1 hjn hint hfuel hw hrej => ?_, fun log' p h => ?_⟩
  · exact Setup_mount_rejected fuel client genUUID log k cfg false m m e hc rfl he
  · exact ⟨_, Setup_write_rejected fuel client genUUID log k cfg false m m e j hc rfl hint hfuel
      hmount hj1 hjn hw hrej⟩
  · obtain ⟨cfg', m', hc', hm', hmount, hw, hlog, _, _⟩ :=
      Setup_ready_inv fuel client genUUID log log' k p false m h
    rw [hc] at hc'
    simp only [Option.some.injEq, KVV2TestConfig.mk.injEq] at hc'
    subst hc'
    simp only [Bool.false_eq_true, if_false, Except.ok.injEq] at hm'
    subst hm'
    exact ⟨hmount, hw, hlog⟩

theorem acceptsWrites_rejectAt_two :
    AcceptsWrites (rejectAt (writeCall "m" 2) "boom") [] "m" (2 - 1) := by
  intro i h1 h2
  obtain rfl : i = 1 := by omega
  rfl

/-- C7 at three backends: one rejects the mount call, one rejects the write
for index 2 of 3, one accepts every call. -/
theorem C7_setup_fail_fast_witness :
    Setup 4 (rejectAt (mountCall "m") "denied") (.ok "u") [] (configured "read" 1 3) false "m" =
        some ([] ++ [mountCall "m"], .failed ("error mounting kvv2: " ++ "denied")) ∧
    (∃ msg, Setup 4 (rejectAt (writeCall "m" 2) "boom") (.ok "u") [] (configured "read" 1 3)
        false "m" =
      some ([] ++ [mountCall "m", Event.sleep 2] ++ writesFrom "m" 1 2, .failed msg)) ∧
    (acceptAll.respond [] (mountCall "m") = none ∧
      AcceptsWrites acceptAll [] "m" (3 : Int).toNat ∧
      afterMount [] "m" ++ writesFrom "m" 1 (3 : Int).toNat =
        [] ++ [mountCall "m", Event.sleep 2] ++ writesFrom "m" 1 (3 : Int).toNat) :=
  ⟨(C7_setup_fail_fast 4 (rejectAt (mountCall "m") "denied") (.ok "u") []
      (configured "read" 1 3) { KVSize := 1, NumKVs := 3 } "m" rfl).1 "denied" rfl,
   (C7_setup_fail_fast 4 (rejectAt (writeCall "m" 2) "boom") (.ok "u") []
      (configured "read" 1 3) { KVSize := 1, NumKVs := 3 } "m" rfl).2.1 2 "boom" rfl
      (by decide) (by decide) (by decide) (by decide) acceptsWrites_rejectAt_two rfl,
   (C7_setup_fail_fast 4 acceptAll (.ok "u") [] (configured "read" 1 3)
      { KVSize := 1, NumKVs := 3 } "m" rfl).2.2 _ _
      (Setup_all_accepted 4 acceptAll (.ok "u") [] (configured "read" 1 3)
        { KVSize := 1, NumKVs := 3 } false "m" "m" rfl rfl (by decide) (by decide) rfl
        (fun _ _ _ => rfl))⟩

/-- C10, as the code has it: when the mount call is accepted and the first
rejected write is the one for index `j`, rejected with the error `e`, the error
that `Setup` returns, given fuel for `j` evaluations of the loop condition, is
`error writing kv: ` followed by `e`; it carries the cause and adds neither the
index nor the path. -/
theorem C10_error_message (fuel : Nat) (client : Client) (genUUID : Except String String)
    (log : List Event) (k : KVV2Test) (cfg : KVV2Config) (m e : String) (j : Nat)
    (hc : k.config = some { Config := some cfg })
    (hint : cfg.NumKVs ≤ 9223372036854775807)
    (hfuel : j ≤ fuel)
    (hmount : client.respond log (mountCall m) = none)
    (hj1 : 1 ≤ j) (hjn : (j : Int) ≤ cfg.NumKVs)
    (hw : AcceptsWrites client log m (j - 1))
    (hrej : client.respond (afterMount log m ++ writesFrom m 1 (j - 1)) (writeCall m (j : Int))
      = some e) :
    Setup fuel client genUUID log k false m =
        some (afterMount log m ++ writesFrom m 1 j, .failed ("error writing kv: " ++ e)) ∧
      e.data <:+ ("error writing kv: " ++ e).data := by
  refine ⟨Setup_write_rejected fuel client genUUID log k cfg false m m e j hc rfl hint hfuel
    hmount hj1 hjn hw hrej, ?_⟩
  rw [String.data_append]
  exact List.suffix_append _ _

theorem acceptsWrites_rejectAt_three :
    AcceptsWrites (rejectAt (writeCall "m" 3) "permission denied") [] "m" (3 - 1) := by
  intro i h1 h2
  have hi : i = 1 ∨ i = 2 := by omega
  rcases hi with rfl | rfl <;> rfl

/-- C10 as the code has it, at a backend that rejects the write for index 3
of 4 with `permission denied`. -/
theorem C10_error_message_witness :
    Setup 5 (rejectAt (writeCall "m" 3) "permission denied") (.ok "u") []
        (configured "read" 1 4) false "m" =
      some (afterMount [] "m" ++ writesFrom "m" 1 3,
        .failed ("error writing kv: " ++ "permission denied")) ∧
    "permission denied".data <:+ ("error writing kv: " ++ "permission denied").data :=
  C10_error_message 5 (rejectAt (writeCall "m" 3) "permission denied") (.ok "u") []
    (configured "read" 1 4) { KVSize := 1, NumKVs := 4 } "m" "permission denied" 3
    rfl (by decide) (by decide) rfl (by decide) (by decide) acceptsWrites_rejectAt_three rfl

/-- C10 fails as stated: with `NumKVs = 2` and a backend that rejects the write
for index 2 with the error `boom`, `Setup` returns `error writing kv: boom`, in
which the index `2` does not occur. -/
theorem C10_error_omits_index :
    Setup 3 (rejectAt (writeCall "m" 2) "boom") (.ok "u") [] (configured "read" 1 2) false "m" =
      some ([mountCall "m", Event.sleep 2, writeCall "m" 1, writeCall "m" 2],
        .failed "error writing kv: boom") ∧
    ¬ (Itoa 2).data <:+: "error writing kv: boom".data := by
  refine ⟨?_, by decide⟩
  rw [Setup_write_rejected 3 (rejectAt (writeCall "m" 2) "boom") (.ok "u") []
    (configured "read" 1 2) { KVSize := 1, NumKVs := 2 } false "m" "m" "boom" 2 rfl rfl
    (by decide) (by decide) rfl (by decide) (by decide) acceptsWrites_rejectAt_two rfl]
  rfl

/-! ## The mode of the provider that Setup returns -/

theorem Setup_ready_fields (fuel : Nat) (client : Client) (genUUID : Except String String)
    (log log' : List Event) (k p : KVV2Test) (cfg : KVV2Config) (rnd : Bool)
    (mountName : String)
    (hc : k.config = some { Config := some cfg })
    (h : Setup fuel client genUUID log k rnd mountName = some (log', .ready p)) :
    p.numKVs = cfg.NumKVs ∧ p.kvSize = cfg.KVSize ∧ p.action = "" := by
  obtain ⟨cfg', m, hc', _, _, _, _, hp, _⟩ :=
    Setup_ready_inv fuel client genUUID log log' k p rnd mountName h
  rw [hc] at hc'
  simp only [Option.some.injEq, KVV2TestConfig.mk.injEq] at hc'
  subst hc' hp
  exact ⟨rfl, rfl, rfl⟩

/-- C1 at the end-to-end scenario (`kvv2_write`, `kvsize = 3`, `numkvs = 5`,
mount name `m`, a backend that accepts every call): the factory yields a
provider with action `write` and `ParseConfig` accepts the block, but the
provider that `Setup` returns, with any fuel that lets its loop end, has the
empty action, so its targets are GET requests without a body and
`GetTargetInfo` reports GET. -/
theorem C1_write_mode_lost :
    TestList KVV2WriteTestType = some { action := "write" } ∧
    ParseConfig { action := "write" } (configBody (.int 3) (.int 5)) =
      (configured "write" 3 5, none) ∧
    (∀ fuel : Nat, 6 ≤ fuel →
      Setup fuel acceptAll (.ok "u") [] (configured "write" 3 5) false "m" =
        some ([mountCall "m", Event.sleep 2, writeCall "m" 1, writeCall "m" 2, writeCall "m" 3,
            writeCall "m" 4, writeCall "m" 5],
          .ready (readyProvider acceptAll "m" { KVSize := 3, NumKVs := 5 }))) ∧
    (readyProvider acceptAll "m" { KVSize := 3, NumKVs := 5 }).action = "" ∧
    Target (readyProvider acceptAll "m" { KVSize := 3, NumKVs := 5 }) "http://vault:8200" 7 =
      .ok { Method := "GET"
            URL := "http://vault:8200/v1/m/data/secret-3"
            Header := [("X-Vault-Token", ["root"]), ("X-Vault-Namespace", [""])]
            Body := "" } ∧
    GetTargetInfo (readyProvider acceptAll "m" { KVSize := 3, NumKVs := 5 }) =
      { method := "GET", pathPrefix := "/v1/m" } := by
  refine ⟨rfl, rfl, fun fuel hfuel => ?_, rfl, rfl, rfl⟩
  rw [Setup_all_accepted fuel acceptAll (.ok "u") [] (configured "write" 3 5)
    { KVSize := 3, NumKVs := 5 } false "m" "m" rfl rfl (by decide)
    (by simpa using hfuel) rfl (fun _ _ _ => rfl)]
  rfl

/-- C3, as the code has it: when the configuration held by the provider has
`0 < int32(NumKVs)` (as for `1 <= NumKVs <= 2147483647`) and `KVSize >= 0`, then
for the ready provider that a successful `Setup` returns, put in any mode,
`Target` returns a target descriptor for every draw. -/
theorem C3_target_returns (fuel : Nat) (client : Client) (genUUID : Except String String)
    (log log' : List Event) (k p : KVV2Test) (cfg : KVV2Config) (rnd : Bool)
    (mountName action address : String) (draw : Nat)
    (hc : k.config = some { Config := some cfg })
    (hsetup : Setup fuel client genUUID log k rnd mountName = some (log', .ready p))
    (hn : 0 < toInt32 cfg.NumKVs) (hs : 0 ≤ cfg.KVSize) :
    ∃ t, Target { p with action := action } address draw = .ok t := by
  obtain ⟨h1, h2, _⟩ :=
    Setup_ready_fields fuel client genUUID log log' k p cfg rnd mountName hc hsetup
  by_cases ha : action = "write"
  · have hw := write_of_pos { p with action := action } address draw
      (by rw [← h1] at hn; exact hn) (by rw [← h2] at hs; exact hs)
    exact ⟨_, by rw [Target, if_pos ha]; exact hw⟩
  · have hr := read_of_pos { p with action := action } address draw
      (by rw [← h1] at hn; exact hn)
    exact ⟨_, by rw [Target, if_neg ha]; exact hr⟩

/-- C3 as the code has it, at the configuration decoded from
`config { kvsize = 3, numkvs = 5 }`, in write mode. -/
theorem C3_target_returns_witness :
    ∃ t, Target { readyProvider acceptAll "m" { KVSize := 3, NumKVs := 5 } with
      action := "write" } "http://vault:8200" 7 = .ok t :=
  C3_target_returns 6 acceptAll (.ok "u") []
    (afterMount [] "m" ++ writesFrom "m" 1 (5 : Int).toNat)
    (ParseConfig { action := "write" } (configBody (.int 3) (.int 5))).1
    (readyProvider acceptAll "m" { KVSize := 3, NumKVs := 5 })
    { KVSize := 3, NumKVs := 5 } false "m" "write" "http://vault:8200" 7
    rfl
    (Setup_all_accepted 6 acceptAll (.ok "u") [] _ { KVSize := 3, NumKVs := 5 } false "m" "m"
      rfl rfl (by decide) (by decide) rfl (fun _ _ _ => rfl))
    (by decide) (by decide)

/-- C3 fails as stated: `ParseConfig` accepts `numkvs = 0`, `Setup` then
succeeds without a single write, and `Target` on the provider it returns
panics in `rand.Int31n`; likewise `ParseConfig` accepts `kvsize = -1`, with
which `Target` in write mode panics in `strings.Repeat`. -/
theorem C3_target_panics :
    ParseConfig { action := "read" } (configBody (.int 1) (.int 0)) =
      (configured "read" 1 0, none) ∧
    (∀ fuel : Nat, 1 ≤ fuel →
      Setup fuel acceptAll (.ok "u") [] (configured "read" 1 0) false "m" =
        some ([mountCall "m", Event.sleep 2],
          .ready (readyProvider acceptAll "m" { KVSize := 1, NumKVs := 0 }))) ∧
    Target (readyProvider acceptAll "m" { KVSize := 1, NumKVs := 0 }) "http://vault:8200" 0 =
      .error "invalid argument to Int31n" ∧
    ParseConfig { action := "write" } (configBody (.int (-1)) (.int 5)) =
      (configured "write" (-1) 5, none) ∧
    Target { readyProvider acceptAll "m" { KVSize := -1, NumKVs := 5 } with action := "write" }
      "http://vault:8200" 0 = .error "strings: negative Repeat count" := by
  refine ⟨rfl, fun fuel hfuel => ?_, rfl, rfl, rfl⟩
  rw [Setup_all_accepted fuel acceptAll (.ok "u") [] (configured "read" 1 0)
    { KVSize := 1, NumKVs := 0 } false "m" "m" rfl rfl (by decide)
    (by simpa using hfuel) rfl (fun _ _ _ => rfl)]
  rfl

/-! ## Cleanup -/

theorem replaceFirst_append_left (old new rest : List Char) (hne : old ≠ []) :
    replaceFirst old new (old ++ rest) = new ++ rest := by
  cases old with
  | nil => exact absurd rfl hne
  | cons c cs =>
    have hp : (c :: cs).isPrefixOf (c :: (cs ++ rest)) = true :=
      List.isPrefixOf_iff_prefix.mpr ⟨rest, rfl⟩
    have hd : List.drop (c :: cs).length (c :: (cs ++ rest)) = rest := by
      rw [← List.cons_append]
      exact List.drop_left' rfl
    rw [List.cons_append, replaceFirst, if_pos hp, hd]

/-- When the first occurrence of `old` in a list starts after the prefix `a`,
`replaceFirst` replaces that occurrence and leaves the rest as it is. -/
theorem replaceFirst_at (old new b : List Char) (hne : old ≠ []) :
    ∀ a : List Char,
      (∀ i < a.length, old.isPrefixOf ((a ++ (old ++ b)).drop i) = false) →
      replaceFirst old new (a ++ (old ++ b)) = a ++ (new ++ b) := by
  intro a
  induction a with
  | nil =>
    intro _
    exact replaceFirst_append_left old new b hne
  | cons x a ih =>
    intro h
    have h0 : old.isPrefixOf (x :: (a ++ (old ++ b))) = false := h 0 (Nat.succ_pos _)
    rw [List.cons_append, replaceFirst, h0]
    simp only [Bool.false_eq_true, if_false]
    rw [ih fun i hi => h (i + 1) (Nat.succ_lt_succ hi)]
    rfl

theorem stringsReplace1_v1 (m : String) :
    stringsReplace1 ("/v1/" ++ m) "/v1/" "/sys/mounts/" = "/sys/mounts/" ++ m := by
  simp only [stringsReplace1, String.data_append]
  rw [replaceFirst_append_left _ _ _ (by decide)]
  rfl

theorem Cleanup_eq (client : Client) (log : List Event) (k : KVV2Test) :
    Cleanup client log k =
      (log ++ [Event.delete (stringsReplace1 k.pathPrefix "/v1/" "/sys/mounts/")],
        (client.respond log
          (Event.delete (stringsReplace1 k.pathPrefix "/v1/" "/sys/mounts/"))).map
          fun e => "error cleaning up mount: " ++ e) := by
  simp only [Cleanup]
  cases client.respond log (Event.delete (stringsReplace1 k.pathPrefix "/v1/" "/sys/mounts/")) <;>
    rfl

/-- C8: on the ready provider that a successful `Setup` with the fixed mount
name `m` returns, `Cleanup` issues exactly one call, the delete of
`"/sys/mounts/" + m`, and returns an error exactly when that call fails. On any
provider `q` the deleted path is `strings.Replace(pathPrefix, "/v1/",
"/sys/mounts/", 1)`: when the first occurrence of `/v1/` in the path prefix
comes after `a` and before `b`, the deleted path is `a + "/sys/mounts/" + b`. -/
theorem C8_cleanup_path (fuel : Nat) (client cleaner : Client)
    (genUUID : Except String String)
    (log log' after : List Event) (k p : KVV2Test) (m : String)
    (hsetup : Setup fuel client genUUID log k false m = some (log', .ready p)) :
    Cleanup cleaner after p =
      (after ++ [Event.delete ("/sys/mounts/" ++ m)],
        (cleaner.respond after (Event.delete ("/sys/mounts/" ++ m))).map
          fun e => "error cleaning up mount: " ++ e) ∧
    ∀ q : KVV2Test,
      Cleanup cleaner after q =
        (after ++ [Event.delete (stringsReplace1 q.pathPrefix "/v1/" "/sys/mounts/")],
          (cleaner.respond after
            (Event.delete (stringsReplace1 q.pathPrefix "/v1/" "/sys/mounts/"))).map
            fun e => "error cleaning up mount: " ++ e) ∧
      ∀ a b : String, q.pathPrefix = a ++ ("/v1/" ++ b) →
        (∀ i < a.data.length, "/v1/".data.isPrefixOf (q.pathPrefix.data.drop i) = false) →
        stringsReplace1 q.pathPrefix "/v1/" "/sys/mounts/" = a ++ ("/sys/mounts/" ++ b) := by
  obtain ⟨cfg, m', _, hm, _, _, _, hp, _⟩ :=
    Setup_ready_inv fuel client genUUID log log' k p false m hsetup
  simp only [Bool.false_eq_true, if_false, Except.ok.injEq] at hm
  subst hm hp
  refine ⟨?_, fun q => ⟨Cleanup_eq cleaner after q, fun a b hq hfirst => ?_⟩⟩
  · rw [Cleanup_eq]
    simp only [readyProvider, stringsReplace1_v1]
  · rw [hq] at hfirst ⊢
    simp only [stringsReplace1, String.data_append] at hfirst ⊢
    rw [replaceFirst_at _ _ _ (by decide) a.data hfirst]
    rfl

/-- C8 at a mount name that itself contains `/v1/`, and at a path prefix in
which the first `/v1/` comes after `/x`. -/
theorem C8_cleanup_path_witness :
    Cleanup acceptAll [] (readyProvider acceptAll "a/v1/b" { KVSize := 1, NumKVs := 2 }) =
      ([] ++ [Event.delete ("/sys/mounts/" ++ "a/v1/b")],
        (acceptAll.respond [] (Event.delete ("/sys/mounts/" ++ "a/v1/b"))).map
          fun e => "error cleaning up mount: " ++ e) ∧
    stringsReplace1 "/x/v1/y/v1/z" "/v1/" "/sys/mounts/" = "/x" ++ ("/sys/mounts/" ++ "y/v1/z") :=
  have h := C8_cleanup_path 3 acceptAll acceptAll (.ok "u") []
    (afterMount [] "a/v1/b" ++ writesFrom "a/v1/b" 1 (2 : Int).toNat) []
    (configured "write" 1 2) (readyProvider acceptAll "a/v1/b" { KVSize := 1, NumKVs := 2 })
    "a/v1/b"
    (Setup_all_accepted 3 acceptAll (.ok "u") [] _ { KVSize := 1, NumKVs := 2 } false
      "a/v1/b" "a/v1/b" rfl rfl (by decide) (by decide) rfl (fun _ _ _ => rfl))
  ⟨h.1, (h.2 { pathPrefix := "/x/v1/y/v1/z" }).2 "/x" "y/v1/z" rfl (by decide)⟩

/-! ## ParseConfig -/

theorem decodeField_ok (attrs : List (String × HclExpr)) (name : String) (cur : Int)
    (h : (decodeField attrs name cur).2 = []) :
    FieldIs attrs name cur (decodeField attrs name cur).1 := by
  unfold FieldIs
  unfold decodeField at h ⊢
  rcases hl : attrs.lookup name with _ | ⟨n⟩ | ⟨src⟩
  · simp
  · simp only [hl, decodeInt] at h ⊢
    split_ifs at h ⊢
    rfl
  · simp [hl, decodeInt] at h

theorem decodeConfigBlock_ok (b : HclBlock) (cur : KVV2Config)
    (h : (decodeConfigBlock b cur).2 = []) :
    FieldIs b.attrs "kvsize" cur.KVSize (decodeConfigBlock b cur).1.KVSize ∧
      FieldIs b.attrs "numkvs" cur.NumKVs (decodeConfigBlock b cur).1.NumKVs := by
  simp only [decodeConfigBlock, List.append_eq_nil] at h
  exact ⟨decodeField_ok _ _ _ h.1.2, decodeField_ok _ _ _ h.2⟩

/-- A decode without error leaves the configuration as it was when the body
has no `config` block, and decodes the block into it when there is one; two or
more `config` blocks are an error. -/
theorem DecodeBody_ok (body : HclBody) (cur : KVV2Config)
    (h : (DecodeBody body { Config := some cur }).2 = []) :
    (configBlocks body = [] ∧ (DecodeBody body { Config := some cur }).1 = { Config := some cur }) ∨
    ∃ b, configBlocks body = [b] ∧ (decodeConfigBlock b cur).2 = [] ∧
      (DecodeBody body { Config := some cur }).1 = { Config := some (decodeConfigBlock b cur).1 } := by
  unfold DecodeBody at h ⊢
  rcases hb : configBlocks body with _ | ⟨b, _ | ⟨b', rest⟩⟩
  · left
    exact ⟨rfl, rfl⟩
  · right
    simp only [hb, List.append_eq_nil, Option.getD_some] at h
    exact ⟨b, rfl, h.2, rfl⟩
  · simp [hb] at h

theorem ParseConfig_error_iff (k : KVV2Test) (body : HclBody) :
    (ParseConfig k body).2 = none ↔
      (DecodeBody body { Config := some { KVSize := 1, NumKVs := 1000 } }).2 = [] := by
  simp only [ParseConfig]
  split_ifs with h
  · simp only [reduceCtorEq, false_iff]
    exact h
  · simp only [true_iff]
    exact not_not.mp h

/-- C9: when `ParseConfig` succeeds the provider holds a configuration, with
`KVSize` and `NumKVs` equal to the integers supplied in the `config` block, or
to the defaults 1 and 1000 for a field that is omitted (or when there is no
`config` block). The empty block yields `KVSize = 1`, `NumKVs = 1000`; the block
`kvsize = 4, numkvs = 10` yields exactly these values. When the decoder reports
an error, as it does for a value that is not an integer, `ParseConfig` returns
an error. -/
theorem C9_parse_config (k : KVV2Test) (body : HclBody) :
    (∀ k1, ParseConfig k body = (k1, none) →
      ∃ cfg, k1 = { k with config := some { Config := some cfg } } ∧
        (configBlocks body = [] → cfg = { KVSize := 1, NumKVs := 1000 }) ∧
        (∀ b, configBlocks body = [b] →
          FieldIs b.attrs "kvsize" 1 cfg.KVSize ∧ FieldIs b.attrs "numkvs" 1000 cfg.NumKVs)) ∧
    ParseConfig k emptyConfigBody =
      ({ k with config := some { Config := some { KVSize := 1, NumKVs := 1000 } } }, none) ∧
    ParseConfig k (configBody (.int 4) (.int 10)) =
      ({ k with config := some { Config := some { KVSize := 4, NumKVs := 10 } } }, none) ∧
    ((DecodeBody body { Config := some { KVSize := 1, NumKVs := 1000 } }).2 ≠ [] →
      ∃ msg, (ParseConfig k body).2 = some msg) ∧
    (∀ (src : String) (other : HclExpr),
      (∃ msg, (ParseConfig k (configBody (.other src) other)).2 = some msg) ∧
      (∃ msg, (ParseConfig k (configBody other (.other src))).2 = some msg)) := by
  refine ⟨fun k1 h => ?_, rfl, rfl, fun h => ?_, fun src other => ⟨?_, ?_⟩⟩
  · have hd := (ParseConfig_error_iff k body).mp (by rw [h])
    have hk1 : k1 = { k with config := some (DecodeBody body ⟨some ⟨1, 1000⟩⟩).1 } := by
      simp only [ParseConfig, hd, ne_eq, not_true_eq_false, if_false, Prod.mk.injEq,
        and_true] at h
      exact h.symm
    rcases DecodeBody_ok body _ hd with ⟨hb, hcfg⟩ | ⟨b, hb, hblock, hcfg⟩
    · refine ⟨{ KVSize := 1, NumKVs := 1000 }, by rw [hk1, hcfg], fun _ => rfl, fun b' hb' => ?_⟩
      rw [hb] at hb'
      cases hb'
    · refine ⟨_, by rw [hk1, hcfg], fun hb' => ?_, fun b' hb' => ?_⟩
      · rw [hb] at hb'
        cases hb'
      · rw [hb] at hb'
        cases hb'
        exact decodeConfigBlock_ok b _ hblock
  · cases hp : (ParseConfig k body).2 with
    | none => exact absurd ((ParseConfig_error_iff k body).mp hp) h
    | some msg => exact ⟨msg, rfl⟩
  · cases hp : (ParseConfig k (configBody (.other src) other)).2 with
    | none =>
      have := (ParseConfig_error_iff _ _).mp hp
      simp [DecodeBody, configBlocks, configBody, decodeConfigBlock, decodeField, decodeInt,
        List.lookup] at this
    | some msg => exact ⟨msg, rfl⟩
  · cases hp : (ParseConfig k (configBody other (.other src))).2 with
    | none =>
      have := (ParseConfig_error_iff _ _).mp hp
      simp [DecodeBody, configBlocks, configBody, decodeConfigBlock, decodeField, decodeInt,
        List.lookup] at this
    | some msg => exact ⟨msg, rfl⟩

end KVV2
